import Mathlib

set_option maxHeartbeats 1000000

/-! Shallow embedding of the DaysCLI program (src/days.cpp).

C++ strings are modeled as lists of characters (`CppString`).
`std::chrono::year_month_day` is modeled by `Days.YearMonthDay`, a record of the
*stored* field values: the chrono types hold a `short` year and `unsigned char`
month and day (exposition-only members in the standard; this is how libstdc++,
libc++ and MSVC represent them), so construction from wider integers reduces
modulo 2^16 (to a signed value) and 2^8 respectively.

All definitions are executable; claims are settled against them below. -/

namespace Days

/-- Model of `std::string`: a finite character sequence. -/
abbrev CppString := List Char

/-- Build a `CppString` from a Lean string literal. -/
def cs (s : String) : CppString := s.toList

/-- The C-locale whitespace test `isspace` used by `stoi`/`stoul` when skipping
leading whitespace: space, tab, newline, vertical tab, form feed, carriage return. -/
def isCppSpace (c : Char) : Bool :=
  c == ' ' || c == '\t' || c == '\n' || c == '\x0b' || c == '\x0c' || c == '\r'

/-- The ten decimal digit characters. -/
def digitChars : List Char := ['0', '1', '2', '3', '4', '5', '6', '7', '8', '9']

/-- The decimal digit character for a value below ten. -/
def digitChar (n : Nat) : Char := digitChars.getD n '0'

/-- Numeric value of a digit character. -/
def charVal (c : Char) : Nat := c.toNat - 48

/-- Value of a big-endian list of decimal digit characters. -/
def digitsToNat (l : List Char) : Nat := l.foldl (fun a c => 10 * a + charVal c) 0

/-- Decimal digit characters of `n`, most significant first (fuel-driven so that
the kernel can evaluate it; `natDigits` supplies sufficient fuel). -/
def natDigitsAux (fuel n : Nat) : List Char :=
  match fuel with
  | 0 => []
  | fuel' + 1 =>
      if n < 10 then [digitChar n]
      else natDigitsAux fuel' (n / 10) ++ [digitChar (n % 10)]

/-- Decimal digit characters of `n`, most significant first, no leading zeros. -/
def natDigits (n : Nat) : List Char := natDigitsAux (n + 1) n

/-- Rendering of an `int` by `operator<<` on an output stream: minus sign (for
negative values) followed by the decimal digits. -/
def intToChars (n : Int) : CppString :=
  if n < 0 then '-' :: natDigits n.natAbs else natDigits n.natAbs

/-- Zero fill applied by `std::setfill('0')`/`std::setw(w)` to an inserted token:
the stream is right-adjusted by default, so the fill characters go on the left,
before any minus sign. -/
def padTo (w : Nat) (l : List Char) : List Char :=
  List.replicate (w - l.length) '0' ++ l

/-- The `std::getline(stream, part, delim)` splitting loop used in
`getDateFromString` (delimiter `'-'`) and in the `--categories` branch
(delimiter `','`): parts are emitted for each consumed delimiter, and a final
part is emitted at end of input only if at least one character remains for it
(so a trailing delimiter does not yield a trailing empty part, and the empty
string yields no parts). `cur` is the text consumed for the current part. -/
def getlineSplitAux (delim : Char) : List Char → List Char → List (List Char)
  | [], cur => if cur = [] then [] else [cur]
  | c :: rest, cur =>
      if c = delim then cur :: getlineSplitAux delim rest []
      else getlineSplitAux delim rest (cur ++ [c])

/-- Split a string with repeated `std::getline` on `delim`. -/
def getlineSplit (delim : Char) (s : List Char) : List (List Char) :=
  getlineSplitAux delim s []

/-- Model of `std::stoi`/`std::stoul` (base 10) as used on the components of a
hyphen-split date string: skip leading C-locale whitespace, accept one optional
sign, then read a nonempty maximal run of decimal digits (trailing characters
are ignored); no digits means `std::invalid_argument`, modeled as `none`.
The callers in `getDateFromString` only reach these conversions when the whole
string has length 10 and splits into three parts, so every component holds at
most 8 digit characters and `std::out_of_range` is unreachable; components also
never contain `'-'` (the split delimiter), but the sign handling is kept for
faithfulness to the library routine. -/
def cppParseInt (s : CppString) : Option Int :=
  let s1 := s.dropWhile isCppSpace
  let s2 := if s1.head? = some '+' ∨ s1.head? = some '-' then s1.tail else s1
  let ds := s2.takeWhile Char.isDigit
  if ds = [] then none
  else some (if s1.head? = some '-' then -(digitsToNat ds : Int) else (digitsToNat ds : Int))

/-- Model of `std::chrono::year_month_day`: the stored `short` year and
`unsigned char` month and day values. -/
structure YearMonthDay where
  year : Int
  month : Nat
  day : Nat
deriving DecidableEq

/-- Conversion of an integer to the stored `short` year value of
`std::chrono::year` (two's-complement narrowing, as in the mainstream
implementations whose exposition-only member is a `short`). -/
def storedYear (y : Int) : Int :=
  let r := y % 65536
  if r ≤ 32767 then r else r - 65536

/-- Conversion of an integer to the stored `unsigned char` value of
`std::chrono::month` / `std::chrono::day` (modulo 256, as in the mainstream
implementations whose exposition-only member is an `unsigned char`). -/
def storedByte (v : Int) : Nat := (v % 256).toNat

/-- Construction `year_month_day{year{y}, month(m), day(d)}` from the parsed
integer components (`int year; unsigned int month, day;` in the source). -/
def mkYMD (y m d : Int) : YearMonthDay :=
  ⟨storedYear y, storedByte m, storedByte d⟩

/-- `std::chrono::year::is_leap()`: `y % 4 == 0 && (y % 100 != 0 || y % 400 == 0)`. -/
def isLeapYear (y : Int) : Prop := y % 4 = 0 ∧ (y % 100 ≠ 0 ∨ y % 400 = 0)

instance (y : Int) : Decidable (isLeapYear y) := by unfold isLeapYear; infer_instance

/-- Day of `y / m / std::chrono::last`: the number of days in month `m` of
year `y` (0 for a month value outside 1..12, which `ok()` rejects anyway). -/
def lastDayOfMonth (y : Int) (m : Nat) : Nat :=
  match m with
  | 1 => 31
  | 2 => if isLeapYear y then 29 else 28
  | 3 => 31
  | 4 => 30
  | 5 => 31
  | 6 => 30
  | 7 => 31
  | 8 => 31
  | 9 => 30
  | 10 => 31
  | 11 => 30
  | 12 => 31
  | _ => 0

/-- `std::chrono::year::ok()`: the stored year lies in `[-32767, 32767]`. -/
def yearOk (y : Int) : Prop := -32767 ≤ y ∧ y ≤ 32767

instance (y : Int) : Decidable (yearOk y) := by unfold yearOk; infer_instance

/-- `std::chrono::year_month_day::ok()`: year, month and day are individually in
range and the day does not exceed the last day of the month. -/
def ymdOk (x : YearMonthDay) : Prop :=
  yearOk x.year ∧ 1 ≤ x.month ∧ x.month ≤ 12 ∧ 1 ≤ x.day ∧ x.day ≤ lastDayOfMonth x.year x.month

instance (x : YearMonthDay) : Decidable (ymdOk x) := by unfold ymdOk; infer_instance

/-- `operator<` on `year_month_day` (derived from `operator<=>`): lexicographic
on (year, month, day). -/
def ymdLt (a b : YearMonthDay) : Prop :=
  a.year < b.year ∨ (a.year = b.year ∧
    (a.month < b.month ∨ (a.month = b.month ∧ a.day < b.day)))

instance (a b : YearMonthDay) : Decidable (ymdLt a b) := by unfold ymdLt; infer_instance

/-- `operator<=` on `year_month_day`: lexicographic less-than or equality. -/
def ymdLe (a b : YearMonthDay) : Prop := ymdLt a b ∨ a = b

instance (a b : YearMonthDay) : Decidable (ymdLe a b) := by unfold ymdLe; infer_instance

/-- Conversion `std::chrono::sys_days{date}`: count of days from 1970-01-01 in
the proleptic Gregorian calendar, as specified for `year_month_day`'s
conversion to `sys_days` (the standard civil-from-date computation; integer
division truncates toward zero exactly as C++ `/` does). -/
def toDays (x : YearMonthDay) : Int :=
  let y : Int := x.year - (if x.month ≤ 2 then 1 else 0)
  let era : Int := (if 0 ≤ y then y else y - 399).tdiv 400
  let yoe : Int := y - era * 400
  let mp : Int := (x.month : Int) + (if 2 < x.month then -3 else 9)
  let doy : Int := (153 * mp + 2).tdiv 5 + (x.day : Int) - 1
  let doe : Int := yoe * 365 + yoe.tdiv 4 - yoe.tdiv 100 + doy
  era * 146097 + doe - 719468

/-- `getNumberOfDaysBetween` (days.cpp lines 138-141): `(later - earlier).count()`
on two `sys_days` values, here represented by their day counts. -/
def getNumberOfDaysBetween (earlier later : Int) : Int := later - earlier

/-- Signed day count between two calendar dates: `getNumberOfDaysBetween`
applied to the `sys_days` conversions, as at its call sites. -/
def daysBetween (a b : YearMonthDay) : Int :=
  getNumberOfDaysBetween (toDays a) (toDays b)

/-- `getDateFromString` (days.cpp lines 26-81): reject unless the string has the
length of `"YYYY-MM-DD"`; split on `'-'` with `getline`; reject unless exactly
three components; convert them with `stoul`/`stoi` (any conversion failure is
caught and yields `nullopt`); build the `year_month_day` and return it iff
`ok()` holds. -/
def getDateFromString (buf : CppString) : Option YearMonthDay :=
  if buf.length ≠ 10 then none
  else
    match getlineSplit '-' buf with
    | [a, b, c] =>
        match cppParseInt a, cppParseInt b, cppParseInt c with
        | some y, some m, some d =>
            let result := mkYMD y m d
            if ymdOk result then some result else none
        | _, _, _ => none
    | _ => none

/-- `getStringFromDate` (days.cpp lines 100-110): stream the year as an `int`
with `setfill('0') << setw(4)`, then `'-'`, the month and the day as unsigned
values with width 2, also zero-filled. -/
def getStringFromDate (x : YearMonthDay) : CppString :=
  padTo 4 (intToChars x.year) ++ '-' :: padTo 2 (natDigits x.month) ++ '-' :: padTo 2 (natDigits x.day)

/-- Modelled from the spec: `EventRecord` — an immutable tuple of a validated
timestamp, a category and a description (the `Event` class lives in the missing
header `event.h`; per the spec its constructor stores the three fields and the
getters return them unchanged). -/
structure Event where
  timestamp : YearMonthDay
  category : CppString
  description : CppString
deriving DecidableEq

/-- `operator<<` for `Event` (days.cpp lines 128-135):
`date: description (category)`. -/
def eventToChars (e : Event) : CppString :=
  getStringFromDate e.timestamp ++ cs r": " ++ e.description ++ cs r" (" ++ e.category ++ cs r")"

/-- The output line built for a kept event (days.cpp lines 323-340): the event,
`" - "`, and the delta suffix (`delta` is the day count from today to the
event, computed on line 248). -/
def formatListLine (today : YearMonthDay) (e : Event) : CppString :=
  let delta := getNumberOfDaysBetween (toDays today) (toDays e.timestamp)
  eventToChars e ++ cs r" - " ++
    (if delta < 0 then intToChars (abs delta) ++ cs r" days ago"
     else if delta > 0 then cs r"in " ++ intToChars delta ++ cs r" days"
     else cs r"today")

/-- Comparison `optional<year_month_day> > year_month_day` (std::optional
compare-with-value semantics: an empty optional is less than every value, so
`>` on an empty optional is false). -/
def optGt : Option YearMonthDay → YearMonthDay → Prop
  | none, _ => False
  | some a, v => ymdLt v a

instance : (o : Option YearMonthDay) → (v : YearMonthDay) → Decidable (optGt o v)
  | none, _ => isFalse (fun h => h)
  | some a, v => inferInstanceAs (Decidable (ymdLt v a))

/-- Comparison `optional<year_month_day> <= year_month_day`: an empty optional
is less than every value, so `<=` on an empty optional is true. -/
def optLe : Option YearMonthDay → YearMonthDay → Prop
  | none, _ => True
  | some a, v => ymdLe a v

instance : (o : Option YearMonthDay) → (v : YearMonthDay) → Decidable (optLe o v)
  | none, _ => isTrue trivial
  | some a, v => inferInstanceAs (Decidable (ymdLe a v))

/-- Comparison `optional<year_month_day> != year_month_day`: an empty optional
is unequal to every value, so `!=` on an empty optional is true. -/
def optNe : Option YearMonthDay → YearMonthDay → Prop
  | none, _ => True
  | some a, v => a ≠ v

instance : (o : Option YearMonthDay) → (v : YearMonthDay) → Decidable (optNe o v)
  | none, _ => isTrue trivial
  | some a, v => inferInstanceAs (Decidable (a ≠ v))

/-- Outcome of one iteration of the `list` loop body for one event:
print the event line (`keep`), `continue` (`skip`), or print `"Missing date."`
and `break` (`halt`). -/
inductive Decision where
  | keep
  | skip
  | halt
deriving DecidableEq

/-- The filter chain of the `list` command (days.cpp lines 248-321) for one
event. `argc` counts all command-line tokens including the program name;
`option1`/`parameter1`/`option2`/`parameter2` are `argv[2..5]` (empty when
absent). The branches translate the if/else chain on `option1` verbatim;
`delta` (line 248) is only consulted by the `--today` branch here and is
recomputed by `formatListLine` for the printed suffix. -/
def listDecision (argc : Nat) (option1 parameter1 option2 parameter2 : CppString)
    (today : YearMonthDay) (e : Event) : Decision :=
  if 2 < argc then
    if option1 = cs r"--today" ∧ getNumberOfDaysBetween (toDays today) (toDays e.timestamp) ≠ 0 then
      .skip
    else if option1 = cs r"--before-date" then
      if 3 < argc ∧ argc ≠ 5 then
        if argc = 6 ∧ option2 = cs r"--after-date" ∧ optGt (getDateFromString parameter2) e.timestamp then
          .skip
        else if optLe (getDateFromString parameter1) e.timestamp then .skip
        else .keep
      else .halt
    else if option1 = cs r"--after-date" then
      if 3 < argc then
        if optGt (getDateFromString parameter1) e.timestamp then .skip else .keep
      else .halt
    else if option1 = cs r"--date" then
      if optNe (getDateFromString parameter1) e.timestamp then .skip else .keep
    else if option1 = cs r"--categories" then
      if ¬ (',' ∈ parameter1) then
        if (parameter1 ≠ e.category ∧ option2 ≠ cs r"--exclude") ∨
            (option2 = cs r"--exclude" ∧ parameter1 = e.category) then .skip
        else .keep
      else
        if (option2 ≠ cs r"--exclude" ∧ ¬ (e.category ∈ getlineSplit ',' parameter1)) ∨
            (option2 = cs r"--exclude" ∧ e.category ∈ getlineSplit ',' parameter1) then .skip
        else .keep
    else if option1 = cs r"--no-category" then
      if e.category ≠ [] then .skip else .keep
    else .keep
  else .keep

/-- The `list` command loop (days.cpp lines 246-341): iterate the events in
order; `halt` prints the `"Missing date."` notice and breaks out of the loop,
`skip` continues, `keep` prints the formatted line. The result is the sequence
of lines written to standard output. -/
def runList (argc : Nat) (option1 parameter1 option2 parameter2 : CppString)
    (today : YearMonthDay) : List Event → List CppString
  | [] => []
  | e :: es =>
      match listDecision argc option1 parameter1 option2 parameter2 today e with
      | .halt => [cs r"Missing date."]
      | .skip => runList argc option1 parameter1 option2 parameter2 today es
      | .keep => formatListLine today e ::
          runList argc option1 parameter1 option2 parameter2 today es

/-- The event-loading loop (days.cpp lines 222-237): for each row index `i`,
parse the date string; on failure record the diagnostic `(i, raw value)`
(`cerr << "bad date at row " << i << ": " << raw`) and continue; on success
append `Event{date, category, description}`. The source indexes the three
column vectors with `.at(i)`; here the category and description columns are
peeled in lockstep (`headD`/`tail`), which coincides with `.at(i)` whenever the
columns have equal length — the loader is only invoked on the equal-length
columns of one parsed CSV document. -/
def loadEvents : Nat → List CppString → List CppString → List CppString →
    List Event × List (Nat × CppString)
  | _, [], _, _ => ([], [])
  | i, dstr :: ds, cats, descs =>
      match getDateFromString dstr with
      | none =>
          let rest := loadEvents (i + 1) ds cats.tail descs.tail
          (rest.1, (i, dstr) :: rest.2)
      | some t =>
          let rest := loadEvents (i + 1) ds cats.tail descs.tail
          (⟨t, cats.headD [], descs.headD []⟩ :: rest.1, rest.2)

/-- Month length written as the specification states it: correct days per month
with February depending on the Gregorian leap-year rule. -/
def specMonthLength (y : Int) (m : Int) : Int :=
  if m = 2 then (if isLeapYear y then 29 else 28)
  else if m = 4 ∨ m = 6 ∨ m = 9 ∨ m = 11 then 30
  else 31

/-- A (year, month, day) triple is a real calendar date: the month is 1..12 and
the day is 1..(days in that month of that year). -/
def isRealCalendarDate (y m d : Int) : Prop :=
  1 ≤ m ∧ m ≤ 12 ∧ 1 ≤ d ∧ d ≤ specMonthLength y m

instance (y m d : Int) : Decidable (isRealCalendarDate y m d) := by
  unfold isRealCalendarDate; infer_instance

/-! ### Order lemmas for the calendar comparison -/

theorem ymd_not_lt (a b : YearMonthDay) : ¬ ymdLt a b ↔ ymdLe b a := by
  obtain ⟨y1, m1, d1⟩ := a
  obtain ⟨y2, m2, d2⟩ := b
  simp only [ymdLt, ymdLe, YearMonthDay.mk.injEq]
  omega

theorem ymd_not_le (a b : YearMonthDay) : ¬ ymdLe a b ↔ ymdLt b a := by
  obtain ⟨y1, m1, d1⟩ := a
  obtain ⟨y2, m2, d2⟩ := b
  simp only [ymdLt, ymdLe, YearMonthDay.mk.injEq]
  omega

/-! ### Reduction of the option chain of the list loop to its branches -/

theorem listDecision_before (argc : Nat) (p1 o2 p2 : CppString) (today : YearMonthDay)
    (e : Event) (h : 2 < argc) :
    listDecision argc (cs r"--before-date") p1 o2 p2 today e =
      if 3 < argc ∧ argc ≠ 5 then
        if argc = 6 ∧ o2 = cs r"--after-date" ∧ optGt (getDateFromString p2) e.timestamp then
          .skip
        else if optLe (getDateFromString p1) e.timestamp then .skip
        else .keep
      else .halt := by
  unfold listDecision
  rw [if_pos h, if_neg (fun hc => absurd hc.1 (by decide)), if_pos rfl]

theorem listDecision_after (argc : Nat) (p1 o2 p2 : CppString) (today : YearMonthDay)
    (e : Event) (h : 2 < argc) :
    listDecision argc (cs r"--after-date") p1 o2 p2 today e =
      if 3 < argc then
        if optGt (getDateFromString p1) e.timestamp then .skip else .keep
      else .halt := by
  unfold listDecision
  rw [if_pos h, if_neg (fun hc => absurd hc.1 (by decide)), if_neg (by decide), if_pos rfl]

theorem listDecision_date (argc : Nat) (p1 o2 p2 : CppString) (today : YearMonthDay)
    (e : Event) (h : 2 < argc) :
    listDecision argc (cs r"--date") p1 o2 p2 today e =
      if optNe (getDateFromString p1) e.timestamp then .skip else .keep := by
  unfold listDecision
  rw [if_pos h, if_neg (fun hc => absurd hc.1 (by decide)), if_neg (by decide),
    if_neg (by decide), if_pos rfl]

theorem listDecision_categories (argc : Nat) (p1 o2 p2 : CppString) (today : YearMonthDay)
    (e : Event) (h : 2 < argc) :
    listDecision argc (cs r"--categories") p1 o2 p2 today e =
      if ¬ (',' ∈ p1) then
        if (p1 ≠ e.category ∧ o2 ≠ cs r"--exclude") ∨
            (o2 = cs r"--exclude" ∧ p1 = e.category) then .skip
        else .keep
      else
        if (o2 ≠ cs r"--exclude" ∧ ¬ (e.category ∈ getlineSplit ',' p1)) ∨
            (o2 = cs r"--exclude" ∧ e.category ∈ getlineSplit ',' p1) then .skip
        else .keep := by
  unfold listDecision
  rw [if_pos h, if_neg (fun hc => absurd hc.1 (by decide)), if_neg (by decide),
    if_neg (by decide), if_neg (by decide), if_pos rfl]

/-! ### Claims about the date filters of the list command -/

/-- Claim C1 (corrected), counterexample to the original claim: with the
before-date filter and the unparseable date parameter `"not-a-date"`, a record
is NOT kept — the listing is empty although the claim asserts every record is
listed. (The empty `std::optional` compares less-or-equal to every date, so
`getDateFromString(parameter1) <= event.getTimestamp()` is true and the loop
skips the record.) -/
theorem beforeDate_unparseable_counterexample :
    getDateFromString (cs r"not-a-date") = none ∧
    runList 4 (cs r"--before-date") (cs r"not-a-date") [] [] ⟨2024, 6, 15⟩
      [⟨⟨2024, 6, 10⟩, cs r"work", cs r"standup"⟩] = [] := by
  constructor
  · rfl
  · rfl

/-- Claim C1 (amended): for the list operation with the before-date filter whose
date parameter fails to parse (and a token count that reaches the comparison,
`argc > 3`, `argc ≠ 5`), the comparison involving the absent value is TRUE — an
empty optional compares less-or-equal to every value — so the before-date
condition excludes every record: no record is listed regardless of its
timestamp. -/
theorem beforeDate_unparseable_excludes_all (argc : Nat) (p1 o2 p2 : CppString)
    (today : YearMonthDay) (e : Event) (h3 : 3 < argc) (h5 : argc ≠ 5)
    (hp : getDateFromString p1 = none) :
    listDecision argc (cs r"--before-date") p1 o2 p2 today e = .skip := by
  rw [listDecision_before argc p1 o2 p2 today e (by omega), if_pos ⟨h3, h5⟩]
  by_cases hc : argc = 6 ∧ o2 = cs r"--after-date" ∧ optGt (getDateFromString p2) e.timestamp
  · rw [if_pos hc]
  · rw [if_neg hc]
    simp [hp, optLe]

/-- Witness for the amended claim C1 at a concrete input. -/
theorem beforeDate_unparseable_excludes_all_witness :
    3 < 4 ∧ (4 : Nat) ≠ 5 ∧ getDateFromString (cs r"not-a-date2") = none ∧
    listDecision 4 (cs r"--before-date") (cs r"not-a-date2") [] [] ⟨2024, 6, 15⟩
      ⟨⟨2024, 6, 10⟩, cs r"work", cs r"standup"⟩ = .skip :=
  ⟨by decide, by decide, by decide,
    beforeDate_unparseable_excludes_all 4 (cs r"not-a-date2") [] [] ⟨2024, 6, 15⟩
      ⟨⟨2024, 6, 10⟩, cs r"work", cs r"standup"⟩ (by decide) (by decide) (by decide)⟩

/-- Claim C2: for the list operation with the on-date filter (`--date`), if the
date parameter fails to parse then the predicate matches no record: every record
is skipped (the loop neither halts nor prints). -/
theorem onDate_unparseable_matches_none (argc : Nat) (p1 o2 p2 : CppString)
    (today : YearMonthDay) (e : Event) (h2 : 2 < argc)
    (hp : getDateFromString p1 = none) :
    listDecision argc (cs r"--date") p1 o2 p2 today e = .skip := by
  rw [listDecision_date argc p1 o2 p2 today e h2]
  simp [hp, optNe]

/-- Witness for claim C2 at a concrete input. -/
theorem onDate_unparseable_matches_none_witness :
    2 < 4 ∧ getDateFromString (cs r"2024-XX-01") = none ∧
    listDecision 4 (cs r"--date") (cs r"2024-XX-01") [] [] ⟨2024, 6, 15⟩
      ⟨⟨2024, 6, 10⟩, cs r"work", cs r"standup"⟩ = .skip :=
  ⟨by decide, by decide,
    onDate_unparseable_matches_none 4 (cs r"2024-XX-01") [] [] ⟨2024, 6, 15⟩
      ⟨⟨2024, 6, 10⟩, cs r"work", cs r"standup"⟩ (by decide) (by decide)⟩

/-- Claim C3: for the list operation with both `--before-date D` and
`--after-date D2` (range form, six tokens) where both parameters parse, a record
is kept iff `D2 <= timestamp < D` in calendar order. -/
theorem range_filter_keeps_iff (p1 p2 : CppString) (today : YearMonthDay) (e : Event)
    (D D2 : YearMonthDay) (h1 : getDateFromString p1 = some D)
    (h2 : getDateFromString p2 = some D2) :
    listDecision 6 (cs r"--before-date") p1 (cs r"--after-date") p2 today e = .keep ↔
      ymdLe D2 e.timestamp ∧ ymdLt e.timestamp D := by
  rw [listDecision_before 6 p1 (cs r"--after-date") p2 today e (by omega), if_pos (by omega)]
  simp only [h1, h2, optGt, optLe, eq_self_iff_true, true_and]
  by_cases ha : ymdLt e.timestamp D2
  · rw [if_pos ha]
    constructor
    · intro h
      exact absurd h (by decide)
    · rintro ⟨hle, -⟩
      exact absurd hle ((ymd_not_le D2 e.timestamp).mpr ha)
  · rw [if_neg ha]
    by_cases hb : ymdLe D e.timestamp
    · rw [if_pos hb]
      constructor
      · intro h
        exact absurd h (by decide)
      · rintro ⟨-, hlt⟩
        exact absurd hb ((ymd_not_le D e.timestamp).mpr hlt)
    · rw [if_neg hb]
      exact iff_of_true rfl ⟨(ymd_not_lt e.timestamp D2).mp ha, (ymd_not_le D e.timestamp).mp hb⟩

/-- Witness for claim C3 at concrete inputs: range 2024-06-01 .. 2024-06-20,
record dated 2024-06-10 is kept. -/
theorem range_filter_keeps_iff_witness :
    getDateFromString (cs r"2024-06-20") = some ⟨2024, 6, 20⟩ ∧
    getDateFromString (cs r"2024-06-01") = some ⟨2024, 6, 1⟩ ∧
    (listDecision 6 (cs r"--before-date") (cs r"2024-06-20") (cs r"--after-date")
        (cs r"2024-06-01") ⟨2024, 6, 15⟩ ⟨⟨2024, 6, 10⟩, cs r"work", cs r"standup"⟩ = .keep ↔
      ymdLe ⟨2024, 6, 1⟩ ⟨2024, 6, 10⟩ ∧ ymdLt ⟨2024, 6, 10⟩ ⟨2024, 6, 20⟩) :=
  ⟨by decide, by decide,
    range_filter_keeps_iff (cs r"2024-06-20") (cs r"2024-06-01") ⟨2024, 6, 15⟩
      ⟨⟨2024, 6, 10⟩, cs r"work", cs r"standup"⟩ ⟨2024, 6, 20⟩ ⟨2024, 6, 1⟩
      (by decide) (by decide)⟩

/-- Claim C4: for the list operation with the after-date filter and a parameter
that parses to `D` (`argc > 3`), a record is excluded exactly when its timestamp
is strictly before `D`, i.e. kept iff `timestamp >= D`. -/
theorem afterDate_filter_semantics (argc : Nat) (p1 o2 p2 : CppString)
    (today : YearMonthDay) (e : Event) (D : YearMonthDay) (h3 : 3 < argc)
    (hp : getDateFromString p1 = some D) :
    (listDecision argc (cs r"--after-date") p1 o2 p2 today e = .skip ↔
        ymdLt e.timestamp D) ∧
    (listDecision argc (cs r"--after-date") p1 o2 p2 today e = .keep ↔
        ymdLe D e.timestamp) := by
  rw [listDecision_after argc p1 o2 p2 today e (by omega), if_pos h3]
  simp only [hp, optGt]
  by_cases h : ymdLt e.timestamp D
  · rw [if_pos h]
    refine ⟨iff_of_true rfl h, ?_⟩
    constructor
    · intro hk
      exact absurd hk (by decide)
    · intro hle
      exact absurd hle ((ymd_not_le D e.timestamp).mpr h)
  · rw [if_neg h]
    refine ⟨?_, iff_of_true rfl ((ymd_not_lt e.timestamp D).mp h)⟩
    constructor
    · intro hk
      exact absurd hk (by decide)
    · intro hlt
      exact absurd hlt h

/-- Witness for claim C4 at concrete inputs. -/
theorem afterDate_filter_semantics_witness :
    3 < 4 ∧ getDateFromString (cs r"2024-06-12") = some ⟨2024, 6, 12⟩ ∧
    ((listDecision 4 (cs r"--after-date") (cs r"2024-06-12") [] [] ⟨2024, 6, 15⟩
        ⟨⟨2024, 6, 10⟩, cs r"work", cs r"standup"⟩ = .skip ↔
      ymdLt ⟨2024, 6, 10⟩ ⟨2024, 6, 12⟩) ∧
    (listDecision 4 (cs r"--after-date") (cs r"2024-06-12") [] [] ⟨2024, 6, 15⟩
        ⟨⟨2024, 6, 10⟩, cs r"work", cs r"standup"⟩ = .keep ↔
      ymdLe ⟨2024, 6, 12⟩ ⟨2024, 6, 10⟩)) :=
  ⟨by decide, by decide,
    afterDate_filter_semantics 4 (cs r"2024-06-12") [] [] ⟨2024, 6, 15⟩
      ⟨⟨2024, 6, 10⟩, cs r"work", cs r"standup"⟩ ⟨2024, 6, 12⟩ (by decide) (by decide)⟩

/-- Claim C9: for the list operation with the categories filter: with no comma in
the parameter, a record is kept iff (category equals the parameter and exclude
is not set) or (category differs and exclude is set); with commas, the parameter
is split on commas and the record is kept iff (its category is a member and
exclude is not set) or (it is not a member and exclude is set). -/
theorem categories_filter_semantics (argc : Nat) (p1 o2 p2 : CppString)
    (today : YearMonthDay) (e : Event) (h : 2 < argc) :
    (¬ (',' ∈ p1) →
      (listDecision argc (cs r"--categories") p1 o2 p2 today e = .keep ↔
        ((e.category = p1 ∧ o2 ≠ cs r"--exclude") ∨
         (e.category ≠ p1 ∧ o2 = cs r"--exclude")))) ∧
    ((',' ∈ p1) →
      (listDecision argc (cs r"--categories") p1 o2 p2 today e = .keep ↔
        ((e.category ∈ getlineSplit ',' p1 ∧ o2 ≠ cs r"--exclude") ∨
         (¬ (e.category ∈ getlineSplit ',' p1) ∧ o2 = cs r"--exclude")))) := by
  rw [listDecision_categories argc p1 o2 p2 today e h]
  have hd : Decision.skip ≠ Decision.keep := by decide
  have hcomm : (e.category = p1) ↔ (p1 = e.category) := eq_comm
  constructor
  · intro hnc
    rw [if_pos hnc]
    split_ifs with hC
    · tauto
    · tauto
  · intro hc
    rw [if_neg (fun hx => hx hc)]
    split_ifs with hC
    · tauto
    · tauto

/-- Witness for claim C9 at the spec's example: `categories("work,home")` on a
record with category `"home"` keeps it without `--exclude`. -/
theorem categories_filter_semantics_witness :
    2 < 4 ∧
    ((¬ (',' ∈ cs r"work,home") →
      (listDecision 4 (cs r"--categories") (cs r"work,home") [] [] ⟨2024, 6, 15⟩
          ⟨⟨2024, 6, 10⟩, cs r"home", cs r"walk"⟩ = .keep ↔
        ((cs r"home" = cs r"work,home" ∧ ([] : CppString) ≠ cs r"--exclude") ∨
         (cs r"home" ≠ cs r"work,home" ∧ ([] : CppString) = cs r"--exclude")))) ∧
    ((',' ∈ cs r"work,home") →
      (listDecision 4 (cs r"--categories") (cs r"work,home") [] [] ⟨2024, 6, 15⟩
          ⟨⟨2024, 6, 10⟩, cs r"home", cs r"walk"⟩ = .keep ↔
        ((cs r"home" ∈ getlineSplit ',' (cs r"work,home") ∧ ([] : CppString) ≠ cs r"--exclude") ∨
         (¬ (cs r"home" ∈ getlineSplit ',' (cs r"work,home")) ∧ ([] : CppString) = cs r"--exclude"))))) :=
  ⟨by decide,
    categories_filter_semantics 4 (cs r"work,home") [] [] ⟨2024, 6, 15⟩
      ⟨⟨2024, 6, 10⟩, cs r"home", cs r"walk"⟩ (by decide)⟩

/-- Claim C10: invoking list as `days list --before-date <token> <token>` with
exactly five command-line tokens (`argc == 5`) prints the `"Missing date."`
notice and terminates the listing at the first record: nothing is listed, even
though a date parameter may be present in `parameter1`. -/
theorem list_beforeDate_argc5_missing_date (p1 o2 p2 : CppString)
    (today : YearMonthDay) (e : Event) (es : List Event) :
    runList 5 (cs r"--before-date") p1 o2 p2 today (e :: es) = [cs r"Missing date."] := by
  have hd := listDecision_before 5 p1 o2 p2 today e (by omega)
  rw [if_neg (by omega : ¬(3 < 5 ∧ (5 : Nat) ≠ 5))] at hd
  simp [runList, hd]

/-! ### Decimal digit and padding lemmas -/

theorem digitsToNat_append (l : List Char) (c : Char) :
    digitsToNat (l ++ [c]) = 10 * digitsToNat l + charVal c := by
  simp [digitsToNat, List.foldl_append]

theorem charVal_digitChar (n : Nat) (h : n < 10) : charVal (digitChar n) = n := by
  interval_cases n <;> rfl

theorem digitChar_mem (n : Nat) : digitChar n ∈ digitChars := by
  unfold digitChar
  by_cases h : n < 10
  · interval_cases n <;> decide
  · rw [List.getD_eq_default _ _ (by simpa using Nat.le_of_not_lt h)]
    decide

theorem mem_digitChars_facts : ∀ c ∈ digitChars,
    Char.isDigit c = true ∧ isCppSpace c = false ∧ c ≠ '+' ∧ c ≠ '-' := by decide

theorem natDigitsAux_mem (fuel n : Nat) (h : n < fuel) :
    ∀ c ∈ natDigitsAux fuel n, c ∈ digitChars := by
  induction fuel generalizing n with
  | zero => omega
  | succ fuel ih =>
      intro c hc
      unfold natDigitsAux at hc
      by_cases h10 : n < 10
      · rw [if_pos h10] at hc
        simp at hc
        exact hc ▸ digitChar_mem n
      · rw [if_neg h10] at hc
        rcases List.mem_append.mp hc with h1 | h2
        · exact ih (n / 10) (by omega) c h1
        · simp at h2
          exact h2 ▸ digitChar_mem (n % 10)

theorem digitsToNat_natDigitsAux (fuel n : Nat) (h : n < fuel) :
    digitsToNat (natDigitsAux fuel n) = n := by
  induction fuel generalizing n with
  | zero => omega
  | succ fuel ih =>
      unfold natDigitsAux
      by_cases h10 : n < 10
      · rw [if_pos h10]
        have : digitsToNat [digitChar n] = charVal (digitChar n) := by
          simp [digitsToNat]
        rw [this, charVal_digitChar n h10]
      · rw [if_neg h10, digitsToNat_append, ih (n / 10) (by omega),
          charVal_digitChar (n % 10) (by omega)]
        omega

theorem natDigitsAux_length (fuel n k : Nat) (h : n < fuel) (hk : 1 ≤ k)
    (hn : n < 10 ^ k) : (natDigitsAux fuel n).length ≤ k := by
  induction fuel generalizing n k with
  | zero => omega
  | succ fuel ih =>
      unfold natDigitsAux
      by_cases h10 : n < 10
      · rw [if_pos h10]
        simpa using hk
      · rw [if_neg h10]
        have hk2 : 2 ≤ k := by
          rcases Nat.lt_or_ge k 2 with hlt | hge
          · interval_cases k
            simp at hn
            omega
          · exact hge
        have hdiv : n / 10 < 10 ^ (k - 1) := by
          rw [Nat.div_lt_iff_lt_mul (by omega)]
          calc n < 10 ^ k := hn
          _ = 10 ^ (k - 1) * 10 := by
              rw [← Nat.pow_succ]
              congr 1
              omega
        have := ih (n / 10) (k - 1) (by omega) (by omega) hdiv
        simp [List.length_append]
        omega

theorem natDigits_mem (n : Nat) : ∀ c ∈ natDigits n, c ∈ digitChars :=
  natDigitsAux_mem (n + 1) n (by omega)

theorem digitsToNat_natDigits (n : Nat) : digitsToNat (natDigits n) = n :=
  digitsToNat_natDigitsAux (n + 1) n (by omega)

theorem natDigits_length_le (n k : Nat) (hk : 1 ≤ k) (hn : n < 10 ^ k) :
    (natDigits n).length ≤ k :=
  natDigitsAux_length (n + 1) n k (by omega) hk hn

theorem natDigits_ne_nil (n : Nat) : natDigits n ≠ [] := by
  unfold natDigits natDigitsAux
  by_cases h10 : n < 10
  · rw [if_pos h10]
    simp
  · rw [if_neg h10]
    simp

theorem padTo_length (w : Nat) (l : List Char) (h : l.length ≤ w) :
    (padTo w l).length = w := by
  simp [padTo]
  omega

theorem padTo_mem (w : Nat) (l : List Char) (h : ∀ c ∈ l, c ∈ digitChars) :
    ∀ c ∈ padTo w l, c ∈ digitChars := by
  intro c hc
  rcases List.mem_append.mp hc with h1 | h2
  · rw [List.eq_of_mem_replicate h1]
    decide
  · exact h c h2

theorem padTo_ne_nil (w : Nat) (l : List Char) (h : l ≠ []) : padTo w l ≠ [] := by
  unfold padTo
  simp [h]

theorem digitsToNat_padTo (w : Nat) (l : List Char) :
    digitsToNat (padTo w l) = digitsToNat l := by
  unfold padTo digitsToNat
  rw [List.foldl_append]
  have hz : ∀ k : Nat, List.foldl (fun a c => 10 * a + charVal c) 0 (List.replicate k '0') = 0 := by
    intro k
    induction k with
    | zero => rfl
    | succ k ihk =>
        rw [List.replicate_succ]
        simpa using ihk
  rw [hz]

/-! ### Splitting and integer-parsing lemmas -/

theorem takeWhile_eq_self_of_all (p : Char → Bool) (l : List Char)
    (h : ∀ c ∈ l, p c = true) : l.takeWhile p = l := by
  induction l with
  | nil => rfl
  | cons c t ih =>
      rw [List.takeWhile_cons, if_pos (h c (by simp))]
      rw [ih (fun x hx => h x (List.mem_cons_of_mem c hx))]

theorem getlineSplitAux_no_delim (delim : Char) (l cur : List Char) (h : delim ∉ l) :
    getlineSplitAux delim l cur = if cur ++ l = [] then [] else [cur ++ l] := by
  induction l generalizing cur with
  | nil => simp [getlineSplitAux]
  | cons c t ih =>
      unfold getlineSplitAux
      rw [if_neg (fun hcd : c = delim => h (hcd ▸ List.mem_cons_self c t))]
      rw [ih (cur ++ [c]) (fun hm => h (List.mem_cons_of_mem c hm))]
      rw [List.append_assoc, List.singleton_append]

theorem getlineSplitAux_delim (delim : Char) (A rest cur : List Char) (h : delim ∉ A) :
    getlineSplitAux delim (A ++ delim :: rest) cur =
      (cur ++ A) :: getlineSplitAux delim rest [] := by
  induction A generalizing cur with
  | nil => simp [getlineSplitAux]
  | cons c t ih =>
      rw [List.cons_append]
      rw [getlineSplitAux]
      rw [if_neg (fun hcd : c = delim => h (hcd ▸ List.mem_cons_self c t))]
      rw [ih (cur ++ [c]) (fun hm => h (List.mem_cons_of_mem c hm))]
      rw [List.append_assoc, List.singleton_append]

theorem getlineSplit_three (A B C : List Char) (hA : '-' ∉ A) (hB : '-' ∉ B)
    (hC : '-' ∉ C) (hCne : C ≠ []) :
    getlineSplit '-' (A ++ '-' :: (B ++ '-' :: C)) = [A, B, C] := by
  unfold getlineSplit
  rw [getlineSplitAux_delim '-' A (B ++ '-' :: C) [] hA]
  rw [getlineSplitAux_delim '-' B C [] hB]
  rw [getlineSplitAux_no_delim '-' C [] hC]
  simp [hCne]

theorem cppParseInt_digits (l : List Char) (hne : l ≠ [])
    (hall : ∀ c ∈ l, c ∈ digitChars) : cppParseInt l = some (digitsToNat l : Int) := by
  obtain ⟨c, t, rfl⟩ := List.exists_cons_of_ne_nil hne
  obtain ⟨hdig, hsp, hplus, hminus⟩ := mem_digitChars_facts c (hall c (by simp))
  have hdw : (c :: t).dropWhile isCppSpace = c :: t := by
    rw [List.dropWhile_cons, if_neg (by simp [hsp])]
  simp only [cppParseInt, hdw, List.head?_cons]
  have hsgn : ¬(some c = some '+' ∨ some c = some '-') := by
    rintro (hp | hm)
    · exact hplus (Option.some.injEq .. ▸ hp)
    · exact hminus (Option.some.injEq .. ▸ hm)
  rw [if_neg hsgn]
  rw [takeWhile_eq_self_of_all Char.isDigit (c :: t)
    (fun x hx => (mem_digitChars_facts x (hall x hx)).1)]
  rw [if_neg (by simp : ¬(c :: t = []))]
  rw [if_neg (fun hm : some c = some '-' => hminus (Option.some.injEq .. ▸ hm))]

theorem cppParseInt_padded (w n : Nat) :
    cppParseInt (padTo w (natDigits n)) = some (n : Int) := by
  rw [cppParseInt_digits (padTo w (natDigits n)) (padTo_ne_nil w _ (natDigits_ne_nil n))
    (padTo_mem w _ (natDigits_mem n))]
  rw [digitsToNat_padTo, digitsToNat_natDigits]

/-! ### Stored-value and month-length lemmas -/

theorem storedYear_small (y : Int) (h0 : 0 ≤ y) (h1 : y ≤ 32767) : storedYear y = y := by
  simp only [storedYear]
  split_ifs <;> omega

theorem storedByte_natCast (n : Nat) (h : n < 256) : storedByte (n : Int) = n := by
  unfold storedByte
  omega

theorem lastDayOfMonth_le_31 (y : Int) (m : Nat) : lastDayOfMonth y m ≤ 31 := by
  unfold lastDayOfMonth
  split
  all_goals first
  | omega
  | (split_ifs <;> omega)

theorem monthLength_agree (y : Int) (m : Nat) (h1 : 1 ≤ m) (h2 : m ≤ 12) :
    (lastDayOfMonth y m : Int) = specMonthLength y (m : Int) := by
  interval_cases m <;> simp [lastDayOfMonth, specMonthLength]

theorem ymdOk_mkYMD_iff (y m d : Int) :
    ymdOk (mkYMD y m d) ↔
      (isRealCalendarDate (storedYear y) (storedByte m : Int) (storedByte d : Int) ∧
        yearOk (storedYear y)) := by
  unfold mkYMD ymdOk isRealCalendarDate
  constructor
  · rintro ⟨hy, h1, h2, h3, h4⟩
    refine ⟨⟨by exact_mod_cast h1, by exact_mod_cast h2, by exact_mod_cast h3, ?_⟩, hy⟩
    rw [← monthLength_agree (storedYear y) (storedByte m) h1 h2]
    exact_mod_cast h4
  · rintro ⟨⟨h1, h2, h3, h4⟩, hy⟩
    have h1' : 1 ≤ storedByte m := by exact_mod_cast h1
    have h2' : storedByte m ≤ 12 := by exact_mod_cast h2
    refine ⟨hy, h1', h2', by exact_mod_cast h3, ?_⟩
    rw [← monthLength_agree (storedYear y) (storedByte m) h1' h2'] at h4
    exact_mod_cast h4

/-! ### Claim C6: parse/format round-trip -/

/-- Claim C6 (corrected), counterexample to the original claim: the triple
(10000, 1, 1) is calendrically valid (`year_month_day::ok()` holds: chrono
years reach 32767), but `getStringFromDate` renders it as the 11-character
string `"10000-01-01"`, which `getDateFromString` rejects by its length-10
check, so the round-trip fails. -/
theorem roundtrip_counterexample :
    ymdOk ⟨10000, 1, 1⟩ ∧
    getDateFromString (getStringFromDate ⟨10000, 1, 1⟩) ≠ some ⟨10000, 1, 1⟩ := by
  constructor
  · decide
  · decide

/-- Claim C6 (amended): for every calendrically valid (y, m, d) whose year lies
in 0..9999 (exactly those whose rendering is a 10-character `YYYY-MM-DD`
string), parsing the formatted rendering returns the same date. -/
theorem parse_format_roundtrip (y : Int) (m d : Nat) (h0 : 0 ≤ y) (h1 : y ≤ 9999)
    (hok : ymdOk ⟨y, m, d⟩) :
    getDateFromString (getStringFromDate ⟨y, m, d⟩) = some ⟨y, m, d⟩ := by
  have hm1 : 1 ≤ m := hok.2.1
  have hm2 : m ≤ 12 := hok.2.2.1
  have hd1 : 1 ≤ d := hok.2.2.2.1
  have hd31 : d ≤ 31 := le_trans hok.2.2.2.2 (lastDayOfMonth_le_31 y m)
  have hyI : intToChars y = natDigits y.natAbs := if_neg (not_lt.mpr h0)
  have hndc : ('-' : Char) ∉ digitChars := by decide
  have hA : '-' ∉ padTo 4 (natDigits y.natAbs) :=
    fun hmem => hndc (padTo_mem 4 _ (natDigits_mem _) '-' hmem)
  have hB : '-' ∉ padTo 2 (natDigits m) :=
    fun hmem => hndc (padTo_mem 2 _ (natDigits_mem _) '-' hmem)
  have hC : '-' ∉ padTo 2 (natDigits d) :=
    fun hmem => hndc (padTo_mem 2 _ (natDigits_mem _) '-' hmem)
  have hAlen : (padTo 4 (natDigits y.natAbs)).length = 4 :=
    padTo_length 4 _ (natDigits_length_le y.natAbs 4 (by norm_num)
      (lt_of_lt_of_eq (show y.natAbs < 10000 by omega) (by norm_num)))
  have hBlen : (padTo 2 (natDigits m)).length = 2 :=
    padTo_length 2 _ (natDigits_length_le m 2 (by norm_num)
      (lt_of_lt_of_eq (show m < 100 by omega) (by norm_num)))
  have hClen : (padTo 2 (natDigits d)).length = 2 :=
    padTo_length 2 _ (natDigits_length_le d 2 (by norm_num)
      (lt_of_lt_of_eq (show d < 100 by omega) (by norm_num)))
  have hCne : padTo 2 (natDigits d) ≠ [] := padTo_ne_nil 2 _ (natDigits_ne_nil d)
  have hs : getStringFromDate ⟨y, m, d⟩ =
      padTo 4 (natDigits y.natAbs) ++ '-' ::
        (padTo 2 (natDigits m) ++ '-' :: padTo 2 (natDigits d)) := by
    simp [getStringFromDate, hyI]
  unfold getDateFromString
  rw [hs]
  rw [if_neg (show ¬(padTo 4 (natDigits y.natAbs) ++ '-' ::
      (padTo 2 (natDigits m) ++ '-' :: padTo 2 (natDigits d))).length ≠ 10 from
    fun hc => hc (by simp [hAlen, hBlen, hClen]))]
  rw [getlineSplit_three _ _ _ hA hB hC hCne]
  have hmk : mkYMD (y.natAbs : Int) (m : Int) (d : Int) = ⟨y, m, d⟩ := by
    unfold mkYMD
    rw [Int.natAbs_of_nonneg h0]
    rw [storedYear_small y h0 (by omega), storedByte_natCast m (by omega),
      storedByte_natCast d (by omega)]
  simp only [cppParseInt_padded, hmk]
  rw [if_pos hok]

/-- Witness for the amended claim C6 at a concrete valid date (a leap day). -/
theorem parse_format_roundtrip_witness :
    (0 : Int) ≤ 2024 ∧ (2024 : Int) ≤ 9999 ∧ ymdOk ⟨2024, 2, 29⟩ ∧
    getDateFromString (getStringFromDate ⟨2024, 2, 29⟩) = some ⟨2024, 2, 29⟩ :=
  ⟨by decide, by decide, by decide,
    parse_format_roundtrip 2024 2 29 (by decide) (by decide) (by decide)⟩

/-! ### Claims C5 and C7 -/

theorem getDateFromString_isSome_iff (s : CppString) :
    (∃ r, getDateFromString s = some r) ↔
      (s.length = 10 ∧ ∃ a b c, getlineSplit '-' s = [a, b, c] ∧
        ∃ y m d : Int, cppParseInt a = some y ∧ cppParseInt b = some m ∧
          cppParseInt c = some d ∧
          isRealCalendarDate (storedYear y) (storedByte m : Int) (storedByte d : Int) ∧
          yearOk (storedYear y)) := by
  unfold getDateFromString
  by_cases hlen : s.length = 10
  case neg =>
    rw [if_pos hlen]
    simp [hlen]
  case pos =>
    rw [if_neg (fun hc => hc hlen)]
    rcases hgs : getlineSplit '-' s with _ | ⟨a, _ | ⟨b, _ | ⟨c, _ | ⟨x, l⟩⟩⟩⟩
    · simp
    · simp
    · simp
    · rcases hpa : cppParseInt a with _ | yv
      · simp [hpa, hlen]
      · rcases hpb : cppParseInt b with _ | mv
        · simp [hpa, hpb, hlen]
        · rcases hpc : cppParseInt c with _ | dv
          · simp [hpa, hpb, hpc, hlen]
          · simp only [hpa, hpb, hpc]
            show (∃ r, (if ymdOk (mkYMD yv mv dv) then some (mkYMD yv mv dv)
                else none) = some r) ↔ _
            by_cases hok : ymdOk (mkYMD yv mv dv)
            · rw [if_pos hok]
              constructor
              · intro hex
                exact ⟨hlen, a, b, c, rfl, yv, mv, dv, hpa, hpb, hpc,
                  ((ymdOk_mkYMD_iff yv mv dv).mp hok).1,
                  ((ymdOk_mkYMD_iff yv mv dv).mp hok).2⟩
              · intro hr
                exact ⟨mkYMD yv mv dv, rfl⟩
            · rw [if_neg hok]
              constructor
              · rintro ⟨r, hr⟩
                exact Option.noConfusion hr
              · rintro ⟨-, a2, b2, c2, hgs2, y2, m2, d2, hpa2, hpb2, hpc2, hreal, hy⟩
                obtain ⟨rfl, rfl, rfl⟩ : a = a2 ∧ b = b2 ∧ c = c2 := by simpa using hgs2
                rw [hpa] at hpa2
                rw [hpb] at hpb2
                rw [hpc] at hpc2
                obtain rfl : yv = y2 := by simpa using hpa2
                obtain rfl : mv = m2 := by simpa using hpb2
                obtain rfl : dv = d2 := by simpa using hpc2
                exact absurd ((ymdOk_mkYMD_iff yv mv dv).mpr ⟨hreal, hy⟩) hok
    · simp

/-- Claim C5 (corrected), counterexample to the original claim: the string
`"0001-268-1"` passes the length and three-component checks and its components
convert to the integers (1, 268, 1), which do NOT form a real calendar date —
yet `getDateFromString` accepts it: `chrono::month{268}` stores its value in an
`unsigned char`, so 268 wraps to 12 and the stored date 0001-12-01 satisfies
`ok()`. -/
theorem parse_reject_counterexample :
    getDateFromString (cs r"0001-268-1") = some ⟨1, 12, 1⟩ ∧
    ¬ isRealCalendarDate 1 268 1 := by
  constructor
  · decide
  · decide

/-- Claim C5 (amended): `getDateFromString` succeeds exactly on strings of
length 10 that split on hyphens into exactly three components, each convertible
by the C++ integer conversion, such that the converted triple — after the
storage narrowing of the chrono field types (year modulo 2^16 as a signed
16-bit value, month and day modulo 2^8) — is a real calendar date with the year
in chrono's range [-32767, 32767]; in particular it rejects `"2024-13-01"`,
`"2024-02-30"` and `"not-a-date"`. -/
theorem parse_characterization :
    (∀ s : CppString, (∃ r, getDateFromString s = some r) ↔
      (s.length = 10 ∧ ∃ a b c, getlineSplit '-' s = [a, b, c] ∧
        ∃ y m d : Int, cppParseInt a = some y ∧ cppParseInt b = some m ∧
          cppParseInt c = some d ∧
          isRealCalendarDate (storedYear y) (storedByte m : Int) (storedByte d : Int) ∧
          yearOk (storedYear y))) ∧
    getDateFromString (cs r"2024-13-01") = none ∧
    getDateFromString (cs r"2024-02-30") = none ∧
    getDateFromString (cs r"not-a-date") = none :=
  ⟨getDateFromString_isSome_iff, by decide, by decide, by decide⟩

/-- Claim C7: `daysBetween` is an exact signed day count: zero on equal dates,
antisymmetric under swapping its arguments, and 60 days from 2024-01-01 to
2024-03-01 (2024 is a leap year). -/
theorem daysBetween_properties :
    (∀ D : YearMonthDay, daysBetween D D = 0) ∧
    (∀ D1 D2 : YearMonthDay, daysBetween D1 D2 = -daysBetween D2 D1) ∧
    daysBetween ⟨2024, 1, 1⟩ ⟨2024, 3, 1⟩ = 60 := by
  refine ⟨fun D => ?_, fun D1 D2 => ?_, by decide⟩
  · unfold daysBetween getNumberOfDaysBetween
    omega
  · unfold daysBetween getNumberOfDaysBetween
    omega

/-! ### Claim C8: the event-loading loop -/

theorem loadEvents_aux_spec (dates : List CppString) :
    ∀ (i : Nat) (cats descs : List CppString),
      cats.length = dates.length → descs.length = dates.length →
      loadEvents i dates cats descs =
        ((dates.zip (cats.zip descs)).filterMap
            (fun r => (getDateFromString r.1).map (fun t => ⟨t, r.2.1, r.2.2⟩)),
          (dates.enumFrom i).filter (fun p => (getDateFromString p.2).isNone)) := by
  induction dates with
  | nil =>
      intro i cats descs h1 h2
      simp [loadEvents]
  | cons dstr ds ih =>
      intro i cats descs h1 h2
      rcases cats with _ | ⟨cat, cats2⟩
      · simp at h1
      rcases descs with _ | ⟨desc, descs2⟩
      · simp at h2
      have ih2 := ih (i + 1) cats2 descs2 (by simpa using h1) (by simpa using h2)
      rw [loadEvents]
      rcases hd : getDateFromString dstr with _ | t
      · simp [hd, ih2]
      · simp [hd, ih2]

/-- Claim C8: loading equal-length parallel date/category/description columns
produces exactly the events of the rows whose date parses, in original row
order, and one diagnostic (row index, raw value) for each row whose date fails
to parse; a bad row never aborts the load — the remaining rows still appear. -/
theorem loadEvents_spec (dates cats descs : List CppString)
    (h1 : cats.length = dates.length) (h2 : descs.length = dates.length) :
    loadEvents 0 dates cats descs =
      ((dates.zip (cats.zip descs)).filterMap
          (fun r => (getDateFromString r.1).map (fun t => ⟨t, r.2.1, r.2.2⟩)),
        dates.enum.filter (fun p => (getDateFromString p.2).isNone)) :=
  loadEvents_aux_spec dates 0 cats descs h1 h2

/-- Witness for claim C8 at the spec's example rows: two events in original
order survive and the middle row yields the single diagnostic (1, "bad-date"). -/
theorem loadEvents_spec_witness :
    ([cs r"work", cs r"x", cs r""] : List CppString).length =
        ([cs r"2024-01-01", cs r"bad-date", cs r"2024-01-02"] : List CppString).length ∧
    ([cs r"standup", cs r"y", cs r"solo walk"] : List CppString).length =
        ([cs r"2024-01-01", cs r"bad-date", cs r"2024-01-02"] : List CppString).length ∧
    (loadEvents 0 [cs r"2024-01-01", cs r"bad-date", cs r"2024-01-02"]
        [cs r"work", cs r"x", cs r""] [cs r"standup", cs r"y", cs r"solo walk"]).1 =
      [⟨⟨2024, 1, 1⟩, cs r"work", cs r"standup"⟩,
       ⟨⟨2024, 1, 2⟩, cs r"", cs r"solo walk"⟩] ∧
    (loadEvents 0 [cs r"2024-01-01", cs r"bad-date", cs r"2024-01-02"]
        [cs r"work", cs r"x", cs r""] [cs r"standup", cs r"y", cs r"solo walk"]).2 =
      [(1, cs r"bad-date")] ∧
    loadEvents 0 [cs r"2024-01-01", cs r"bad-date", cs r"2024-01-02"]
        [cs r"work", cs r"x", cs r""] [cs r"standup", cs r"y", cs r"solo walk"] =
      (([cs r"2024-01-01", cs r"bad-date", cs r"2024-01-02"].zip
          (([cs r"work", cs r"x", cs r""] : List CppString).zip
            [cs r"standup", cs r"y", cs r"solo walk"])).filterMap
          (fun r => (getDateFromString r.1).map (fun t => ⟨t, r.2.1, r.2.2⟩)),
        ([cs r"2024-01-01", cs r"bad-date", cs r"2024-01-02"] : List CppString).enum.filter
          (fun p => (getDateFromString p.2).isNone)) :=
  ⟨by decide, by decide, by decide, by decide,
    loadEvents_spec [cs r"2024-01-01", cs r"bad-date", cs r"2024-01-02"]
      [cs r"work", cs r"x", cs r""] [cs r"standup", cs r"y", cs r"solo walk"]
      (by decide) (by decide)⟩

end Days
